import Mathlib

/-!
Verification of the option schema/parser core of the repository
(`src/option-parser.js`).  The JavaScript code is shallowly embedded:
JS values that can reach an Option's fields are modelled by `JSVal`,
truthiness and the `||` operator by `truthy` and `jsOr`, and the
side-effecting callback channel of `OptionParser.prototype.parse` by an
accumulated list of `CbEvent`s.  The in-place mutation of
`opt.value.current` is modelled by state passing over the option list.
String operations are modelled over the character list of a `String`
(the program only ever manipulates ASCII argument strings), so that all
definitions reduce inside the kernel.
-/

/-- A JavaScript value, restricted to the shapes that flow through the
option parser: `undefined`, `null`, booleans, numbers and strings. -/
inductive JSVal where
  | vUndefined : JSVal
  | vNull : JSVal
  | vBool : Bool → JSVal
  | vNum : Int → JSVal
  | vStr : String → JSVal
deriving DecidableEq

/-- JavaScript truthiness of a `JSVal` (`undefined`, `null`, `false`,
`0` and the empty string are falsy). -/
def truthy : JSVal → Bool
  | .vUndefined => false
  | .vNull => false
  | .vBool b => b
  | .vNum n => n != 0
  | .vStr s => s != ""

/-- JavaScript `a || b`: the first operand when truthy, otherwise the
second. -/
def jsOr (a b : JSVal) : JSVal :=
  if truthy a then a else b

/-- JavaScript string coercion, as performed by `+` concatenation in the
error messages (`option.getCode() + " is required"` may concatenate
`null`). -/
def jsToString : JSVal → String
  | .vUndefined => "undefined"
  | .vNull => "null"
  | .vBool b => if b then "true" else "false"
  | .vNum n => toString n
  | .vStr s => s

/-- JavaScript strict equality `===` on the modelled values (values of
different types are never strictly equal). -/
def jsStrictEq : JSVal → JSVal → Bool
  | .vUndefined, .vUndefined => true
  | .vNull, .vNull => true
  | .vBool a, .vBool b => a == b
  | .vNum a, .vNum b => a == b
  | .vStr a, .vStr b => a == b
  | _, _ => false

/-- Character-list version of `String.prototype.startsWith` (the
polyfill `this.lastIndexOf(str, 0) === 0`, i.e. a prefix test). -/
def strStartsWith (s p : String) : Bool :=
  p.data.isPrefixOf s.data

/-- Character-list version of `String.prototype.slice(n)`: drop the
first `n` characters. -/
def strDrop (s : String) (n : Nat) : String :=
  ⟨s.data.drop n⟩

/-- Character-list version of `String.prototype.slice(0, n)`: keep the
first `n` characters. -/
def strTake (s : String) (n : Nat) : String :=
  ⟨s.data.take n⟩

/-- Character-list version of `String.prototype.toLowerCase` on the
ASCII strings the parser manipulates. -/
def strToLower (s : String) : String :=
  ⟨s.data.map Char.toLower⟩

/-- JavaScript `indexOf("=")`: index of the first `=` character, or
`-1` when absent. -/
def jsIndexOfEq (s : String) : Int :=
  match s.data.findIdx? (· == '=') with
  | some n => (n : Int)
  | none => -1

/-- Helper for `strSplitEq`: split a character list at every `=`. -/
def splitEqAux : List Char → List Char → List String
  | [], acc => [⟨acc.reverse⟩]
  | '=' :: rest, acc => (⟨acc.reverse⟩ : String) :: splitEqAux rest []
  | c :: rest, acc => splitEqAux rest (c :: acc)

/-- JavaScript `split("=")`: the list of segments of `s` between `=`
characters (`"a="` splits into `["a", ""]`). -/
def strSplitEq (s : String) : List String :=
  splitEqAux s.data []

/-- Helper for `toCamelCase`: the global replacement of the regex
`-([a-z])` by the upper-cased captured letter, over a character list. -/
def toCamelCaseAux : List Char → List Char
  | [] => []
  | ['-'] => ['-']
  | '-' :: c :: rest2 =>
    if 'a' ≤ c ∧ c ≤ 'z' then c.toUpper :: toCamelCaseAux rest2
    else '-' :: toCamelCaseAux (c :: rest2)
  | c :: rest => c :: toCamelCaseAux rest

/-- The polyfilled `String.prototype.toCamelCase`: the global regex
replacement of a dash followed by a captured lower-case letter by
`g[1].toUpperCase()`. -/
def toCamelCase (s : String) : String :=
  ⟨toCamelCaseAux s.data⟩

/-- The five members of the `OptionType` object.  The source stores the
formatting function itself on each Option and compares it with `===`;
the closed set of functions is modelled as a tag. -/
inductive Kind where
  | normal : Kind
  | help : Kind
  | separator : Kind
  | note : Kind
  | footer : Kind
deriving DecidableEq

/-- The `value` sub-object of an option spec as supplied by a caller of
`OptionParser.prototype.addOption`; absent keys are `undefined`. -/
structure ValueSpec where
  current : JSVal := .vUndefined
  default : JSVal := .vUndefined
  required : JSVal := .vUndefined
deriving DecidableEq

/-- An option spec as supplied to `addOption` / the `Option`
constructor; absent keys are `undefined` (`type` and `value` are
modelled as `Option` since the constructor only tests them for
truthiness). -/
structure OptionSpec where
  longCode : JSVal := .vUndefined
  lCode : JSVal := .vUndefined
  shortCode : JSVal := .vUndefined
  sCode : JSVal := .vUndefined
  description : JSVal := .vUndefined
  desc : JSVal := .vUndefined
  type : Option Kind := none
  value : Option ValueSpec := none
  required : JSVal := .vUndefined
  id : JSVal := .vUndefined
deriving DecidableEq

/-- A constructed `Option` object (fields as assigned by the `Option`
constructor; the open `data` extension bag is not modelled, no claim
touches it). -/
structure Option' where
  longCode : JSVal
  shortCode : JSVal
  description : JSVal
  type : Kind
  valCurrent : JSVal
  valDefault : JSVal
  valRequired : JSVal
  required : JSVal
  id : JSVal
deriving DecidableEq

/-- The field of `spec.value` selected by `f`, or `undefined` when the
spec carries no `value` object (JS `opt.value && opt.value.<f>`). -/
def specValField (spec : OptionSpec) (f : ValueSpec → JSVal) : JSVal :=
  match spec.value with
  | some v => f v
  | none => .vUndefined

/-- The `Option` constructor (`function Option(opt)`), field by field:
each assignment is a JS `||` fallback chain ending in `null` (or
`false` for the two `required` flags), and `type` falls back to
`OptionType.normal`. -/
def mkOption (spec : OptionSpec) : Option' :=
  let longCode := jsOr spec.longCode (jsOr spec.lCode .vNull)
  let shortCode := jsOr spec.shortCode (jsOr spec.sCode .vNull)
  { longCode := longCode
    shortCode := shortCode
    description := jsOr spec.description (jsOr spec.desc .vNull)
    type := spec.type.getD Kind.normal
    valCurrent := jsOr (specValField spec (·.current)) .vNull
    valDefault := jsOr (specValField spec (·.default)) .vNull
    valRequired := jsOr (specValField spec (·.required)) (.vBool false)
    required := jsOr spec.required (.vBool false)
    id := jsOr spec.id (jsOr longCode (jsOr shortCode .vNull)) }

/-- `Option.prototype.getCode`: `this.longCode || this.shortCode ||
null`. -/
def Option'.getCode (o : Option') : JSVal :=
  jsOr o.longCode (jsOr o.shortCode .vNull)

/-- `Option.prototype.getValue`: `this.value.current`. -/
def Option'.getValue (o : Option') : JSVal :=
  o.valCurrent

/-- `Option.prototype.hasDefaultValue`: returns `this.value["default"]`
itself (callers test it for truthiness). -/
def Option'.hasDefaultValue (o : Option') : JSVal :=
  o.valDefault

/-- `Option.prototype.valueIsRequired`: returns `this.value.required`
itself (callers test it for truthiness). -/
def Option'.valueIsRequired (o : Option') : JSVal :=
  o.valRequired

/-- Camel-casing step of `getId`: only strings carry a `toCamelCase`
method; the constructor only ever stores a string or `null` in the id
fallback chain, and the branch is guarded by truthiness. -/
def camelVal : JSVal → JSVal
  | .vStr s => .vStr (toCamelCase s)
  | v => v

/-- `Option.prototype.getId`: `this.id || this.longCode ||
this.shortCode || null`, camel-cased when truthy, else the raw
`this.id`. -/
def Option'.getId (o : Option') : JSVal :=
  let id := jsOr o.id (jsOr o.longCode (jsOr o.shortCode .vNull))
  if truthy id then camelVal id else o.id

/-- The match predicate of `OptionParser.prototype.findOption`:
`getId() === id || longCode === id || shortCode === id`. -/
def matchesId (o : Option') (id : JSVal) : Bool :=
  jsStrictEq o.getId id || jsStrictEq o.longCode id || jsStrictEq o.shortCode id

/-- `OptionParser.prototype.findOption`: the first option matching the
given id / long code / short code, else `null`. -/
def findOption (opts : List Option') (id : JSVal) : Option Option' :=
  opts.find? (fun o => matchesId o id)

/-- One step of `OptionParser.prototype.addOption`: construct the
Option and append it unless `findOption(option.getId())` already
resolves. -/
def addOption1 (opts : List Option') (spec : OptionSpec) : List Option' :=
  let o := mkOption spec
  match findOption opts o.getId with
  | some _ => opts
  | none => opts ++ [o]

/-- `OptionParser.prototype.addOption` on a sequence of specs (the
`optionParams.forEach` branch); the updated registry is the return
value (`return self`). -/
def addOption (opts : List Option') (specs : List OptionSpec) : List Option' :=
  specs.foldl addOption1 opts

/-- The error object built by `OptionParser.generateError` (`{ msg,
code }`). -/
structure ErrorObj where
  msg : String
  code : Int
deriving DecidableEq

/-- `OptionParser.generateError(msg)`: both call sites in the source
omit the `code` argument, so `code || -1` yields `-1`; `msg || ""` is
the identity on the string messages passed. -/
def generateError (msg : String) : ErrorObj :=
  { msg := msg, code := -1 }

/-- One invocation of the shared callback of
`OptionParser.prototype.parse`: `callback(errorObject, null)`,
`callback(true, null)` for a Help option, or the final
`callback(null, self.options)`. -/
inductive CbEvent where
  | errObj : ErrorObj → CbEvent
  | helpEv : CbEvent
  | successEv : List Option' → CbEvent
deriving DecidableEq

/-- Mutation `opt.value.current = v` performed through the object
reference returned by `findOption`: update the first option matching
`id` in place. -/
def setCurrentFirst (opts : List Option') (id : JSVal) (v : JSVal) :
    List Option' :=
  match opts with
  | [] => []
  | o :: rest =>
    if matchesId o id then { o with valCurrent := v } :: rest
    else o :: setCurrentFirst rest id v

/-- The token loop of `OptionParser.prototype.parse` (`for (i = 1; i <
self.args.length; i += 1)`), in state-passing form.  `argCode0` is the
value of the `var argCode` before the iteration (`none` models the
still-`undefined` variable; a token with no dash prefix leaves it
unchanged, and `argCode.indexOf("=")` on `undefined` throws a
`TypeError`, modelled as `Except.error ()`).  The `fuel` argument only
drives structural recursion: the caller passes `args.length`, which
exceeds the number of loop iterations, so the fuel-exhausted branch is
never reached. -/
def parseLoop (args : List String) (fuel i : Nat) (argCode0 : Option String)
    (opts : List Option') (evs : List CbEvent) :
    Except Unit (List Option' × List CbEvent) :=
  match fuel with
  | 0 => .ok (opts, evs)
  | fuel + 1 =>
    if _h : i < args.length then
      let arg := args[i]
      let argCode1 :=
        if strStartsWith arg "--" then some (strToLower (strDrop arg 2))
        else if strStartsWith arg "-" then some (strDrop arg 1)
        else argCode0
      match argCode1 with
      | none => .error ()
      | some ac0 =>
        let ac := if 1 ≤ jsIndexOfEq ac0 then strTake ac0 (jsIndexOfEq ac0).toNat else ac0
        match findOption opts (.vStr ac) with
        | some opt =>
          let evs1 := if opt.type = Kind.help then evs ++ [.helpEv] else evs
          let nextArg := args[i + 1]?
          let nextTruthy : Bool :=
            match nextArg with
            | none => false
            | some s => s != ""
          if 1 ≤ jsIndexOfEq arg then
            parseLoop args fuel (i + 1) (some ac)
              (setCurrentFirst opts (.vStr ac) (.vStr ((strSplitEq arg)[1]?.getD "")))
              evs1
          else if !nextTruthy || (nextTruthy && strStartsWith (nextArg.getD "") "-") then
            let evs2 :=
              if truthy opt.valueIsRequired && !truthy opt.getValue then
                evs1 ++ [.errObj (generateError (ac ++ " requires a value"))]
              else evs1
            parseLoop args fuel (i + 1) (some ac)
              (setCurrentFirst opts (.vStr ac) (.vBool true)) evs2
          else
            parseLoop args fuel (i + 2) (some ac)
              (setCurrentFirst opts (.vStr ac) (.vStr (nextArg.getD ""))) evs1
        | none =>
          parseLoop args fuel (i + 1) (some ac) opts
            (evs ++ [.errObj (generateError (ac ++ " not found in options"))])
    else .ok (opts, evs)

/-- One iteration of the required-switches pass
(`self.options.forEach` at the end of `parse`): the callback
invocations it performs for `option`. -/
def checkRequired (opts : List Option') (o : Option') : List CbEvent :=
  if truthy o.required &&
      (match o.required with | .vStr _ => true | _ => false) then
    match findOption opts o.required with
    | some found =>
      if !truthy o.getValue && !truthy found.getValue then
        [.errObj (generateError
          (jsToString o.getCode ++ " -OR- " ++ jsToString found.getCode ++ " is required"))]
      else []
    | none => []
  else if truthy o.required && !truthy o.getValue then
    [.errObj (generateError (jsToString o.getCode ++ " is required"))]
  else []

/-- The whole required-switches pass, accumulating callback
invocations in registration order. -/
def requiredPass (opts : List Option') : List CbEvent :=
  opts.foldl (fun evs o => evs ++ checkRequired opts o) []

/-- `OptionParser.prototype.parse`: run the token loop from index 1
(the first arg is the program name), then the required-switches pass,
then the unconditional final `callback(null, self.options)`.  The
result is the final option list together with every callback
invocation in order; `Except.error` models a thrown `TypeError`. -/
def parse (opts : List Option') (args : List String) :
    Except Unit (List Option' × List CbEvent) :=
  match parseLoop args args.length 1 none opts [] with
  | .error e => .error e
  | .ok (opts', evs) =>
    .ok (opts', evs ++ requiredPass opts' ++ [.successEv opts'])

/-- The part of `OptionType.normal` before the default-value suffix:
codes, the `[=]` marker and the description. -/
def normalBase (o : Option') : String :=
  let s := "   "
  let s := if truthy o.shortCode then s ++ "-" ++ jsToString o.shortCode ++ ", " else s
  let s := if truthy o.longCode then s ++ "--" ++ jsToString o.longCode else s
  let s := if truthy o.valueIsRequired then s ++ "[=]" else s
  let s := s ++ ": "
  if truthy o.description then s ++ jsToString o.description else s

/-- `OptionType.normal`: the banner line for a Normal (or Help) option;
the `[default: ...]` suffix is appended only when `hasDefaultValue()`
is truthy. -/
def normalRender (o : Option') : String :=
  (if truthy o.hasDefaultValue then
    normalBase o ++ " [default: " ++ jsToString o.valDefault ++ "]"
  else normalBase o) ++ "\n"

/-! ### Shared helper lemmas -/

/-- Strict equality `===` is reflexive on the modelled values. -/
theorem jsStrictEq_refl (v : JSVal) : jsStrictEq v v = true := by
  cases v <;> simp [jsStrictEq]

/-- A truthy left operand wins a JS `||`. -/
theorem jsOr_of_truthy (a b : JSVal) (h : truthy a = true) : jsOr a b = a := by
  simp [jsOr, h]

/-- A falsy right operand makes `a || b` as truthy as `a`. -/
theorem truthy_jsOr_falsy (v w : JSVal) (h : truthy w = false) :
    truthy (jsOr v w) = truthy v := by
  cases hv : truthy v <;> simp [jsOr, hv, h]

/-- A JS `||` whose right operand is truthy-or-`null` is itself
truthy-or-`null`. -/
theorem jsOr_truthy_or (a b : JSVal)
    (hb : truthy b = true ∨ b = .vNull) :
    truthy (jsOr a b) = true ∨ jsOr a b = .vNull := by
  unfold jsOr
  split
  · next h => exact Or.inl h
  · exact hb

/-- The `id` field assigned by the `Option` constructor is truthy or
`null` (its fallback chain ends in `null` and `||` skips falsy
operands). -/
theorem mkOption_id_truthy_or_null (spec : OptionSpec) :
    truthy (mkOption spec).id = true ∨ (mkOption spec).id = .vNull := by
  have hrfl : (mkOption spec).id =
      jsOr spec.id (jsOr (jsOr spec.longCode (jsOr spec.lCode .vNull))
        (jsOr (jsOr spec.shortCode (jsOr spec.sCode .vNull)) .vNull)) := rfl
  rw [hrfl]
  exact jsOr_truthy_or _ _ (jsOr_truthy_or _ _ (jsOr_truthy_or _ _ (Or.inr rfl)))

/-- `find?` skips a whole leading segment on which the predicate is
false. -/
theorem find?_append_none {α : Type} (p : α → Bool) (l1 l2 : List α)
    (h : ∀ a ∈ l1, p a = false) :
    (l1 ++ l2).find? p = l2.find? p := by
  induction l1 with
  | nil => simp
  | cons a tl ih =>
    rw [List.cons_append, List.find?_cons, h a (List.mem_cons_self a tl)]
    exact ih (fun x hx => h x (List.mem_cons_of_mem a hx))

/-- A basic-latin upper-case letter, by scalar value. -/
def isUpperAscii (c : Char) : Prop := 65 ≤ c.toNat ∧ c.toNat ≤ 90

/-- `Char.toLower` never produces a basic-latin upper-case letter: an
upper-case input is shifted into `a`-`z`, any other input is returned
unchanged and was not upper-case. -/
theorem toLower_not_upperAscii (x : Char) : ¬ isUpperAscii (Char.toLower x) := by
  intro hup
  unfold Char.toLower at hup
  by_cases h : x.toNat ≥ 65 ∧ x.toNat ≤ 90
  · rw [if_pos h] at hup
    have hv : (Char.ofNat (x.toNat + 32)).toNat = x.toNat + 32 := by
      rw [Char.ofNat, dif_pos (Or.inl (by omega))]
      rfl
    rw [isUpperAscii, hv] at hup
    omega
  · rw [if_neg h] at hup
    exact h ⟨hup.1, hup.2⟩

/-- `Char.toUpper` of a letter in `a`-`z` is a basic-latin upper-case
letter. -/
theorem toUpper_upperAscii (c : Char) (h1 : 'a' ≤ c) (h2 : c ≤ 'z') :
    isUpperAscii (Char.toUpper c) := by
  rw [Char.le_def] at h1 h2
  have hn1 : 97 ≤ c.toNat := h1
  have hn2 : c.toNat ≤ 122 := h2
  unfold Char.toUpper
  rw [if_pos ⟨hn1, hn2⟩]
  have hv : (Char.ofNat (c.toNat - 32)).toNat = c.toNat - 32 := by
    rw [Char.ofNat, dif_pos (Or.inl (by omega))]
    rfl
  rw [isUpperAscii, hv]
  omega

/-- Unfolding of `toCamelCaseAux` on a cons cell whose head is not a
dash. -/
theorem camelAux_cons (c : Char) (rest : List Char) (hc : c ≠ '-') :
    toCamelCaseAux (c :: rest) = c :: toCamelCaseAux rest := by
  rw [toCamelCaseAux.eq_def]
  split
  · rename_i heq
    exact nomatch heq
  · rename_i heq
    injection heq with h1 h2
    exact absurd h1 hc
  · rename_i heq
    injection heq with h1 h2
    exact absurd h1 hc
  · rename_i heq
    injection heq with h1 h2
    rw [h1, h2]

/-- If camel-casing produces no basic-latin upper-case letter, it
changed nothing: every replacement it performs inserts the upper-cased
captured letter. -/
theorem camelAux_fixed : ∀ (l : List Char),
    (∀ c ∈ toCamelCaseAux l, ¬ isUpperAscii c) → toCamelCaseAux l = l := by
  intro l
  induction l using toCamelCaseAux.induct with
  | case1 => intro _; rfl
  | case2 => intro _; rfl
  | case3 c rest2 hg ih =>
    intro hnu
    exfalso
    have hev : toCamelCaseAux ('-' :: c :: rest2) =
        c.toUpper :: toCamelCaseAux rest2 := by
      rw [toCamelCaseAux, if_pos hg]
    rw [hev] at hnu
    exact hnu c.toUpper (List.mem_cons_self _ _) (toUpper_upperAscii c hg.1 hg.2)
  | case4 c rest2 hg ih =>
    intro hnu
    have hev : toCamelCaseAux ('-' :: c :: rest2) =
        '-' :: toCamelCaseAux (c :: rest2) := by
      rw [toCamelCaseAux, if_neg hg]
    rw [hev] at hnu ⊢
    rw [ih (fun x hx => hnu x (List.mem_cons_of_mem _ hx))]
  | case5 c rest h1 h2 ih =>
    intro hnu
    have hc : c ≠ '-' := by
      intro hceq
      cases rest with
      | nil => exact h1 hceq rfl
      | cons a tl => exact h2 a tl hceq rfl
    rw [camelAux_cons c rest hc] at hnu ⊢
    rw [ih (fun x hx => hnu x (List.mem_cons_of_mem _ hx))]

/-- A lowercased token contains no basic-latin upper-case letter. -/
theorem strToLower_no_upperAscii (s : String) :
    ∀ c ∈ (strToLower s).data, ¬ isUpperAscii c := by
  intro c hc
  rcases List.mem_map.mp hc with ⟨x, _, rfl⟩
  exact toLower_not_upperAscii x

/-- A camel-cased string can only coincide with a lowercased token if
the camel-casing was the identity, in which case the original string
already equals the token. -/
theorem camel_eq_lower_imp (lc X : String)
    (h : toCamelCase lc = strToLower X) : strToLower X = lc := by
  have hdata : toCamelCaseAux lc.data = (strToLower X).data :=
    congrArg String.data h
  have hnu : ∀ c ∈ toCamelCaseAux lc.data, ¬ isUpperAscii c := by
    rw [hdata]
    exact strToLower_no_upperAscii X
  have hfix : toCamelCaseAux lc.data = lc.data := camelAux_fixed _ hnu
  have hcamel : toCamelCase lc = lc := by
    show (⟨toCamelCaseAux lc.data⟩ : String) = lc
    rw [hfix]
  exact (hcamel.symm.trans h).symm

/-- Once `argCode` holds a string (or the token at the current index is
dash-prefixed when it is still `undefined`), the token loop can no
longer throw: every branch of the body recurses with a `some`
`argCode`. -/
theorem parseLoop_ok_hyp (args : List String) (fuel : Nat) :
    ∀ (i : Nat) (ac0 : Option String) (opts : List Option') (evs : List CbEvent),
    (ac0 = none → ∀ s, args[i]? = some s → strStartsWith s "-" = true) →
    ∃ r, parseLoop args fuel i ac0 opts evs = .ok r := by
  induction fuel with
  | zero =>
    intro i ac0 opts evs _
    exact ⟨(opts, evs), rfl⟩
  | succ fuel ih =>
    intro i ac0 opts evs hdash
    simp only [parseLoop]
    split
    · next hi =>
      split
      · next heq =>
        exfalso
        have hsome : args[i]? = some args[i] := List.getElem?_eq_getElem hi
        revert heq
        split
        · simp
        · split
          · simp
          · next h2 h3 =>
            intro hnone
            have := hdash hnone args[i] hsome
            exact h3 this
      · next ac0' heq =>
        split
        · split
          · exact ih _ _ _ _ (fun h => nomatch h)
          · split
            · exact ih _ _ _ _ (fun h => nomatch h)
            · exact ih _ _ _ _ (fun h => nomatch h)
        · exact ih _ _ _ _ (fun h => nomatch h)
    · exact ⟨(opts, evs), rfl⟩

/-! ### Concrete schemas from the application (`rasterize.js` façade) -/

/-- The `url` option spec registered by the application. -/
def urlSpec : OptionSpec :=
  { longCode := .vStr "url", shortCode := .vStr "u",
    description := .vStr "a URL to load",
    value := some { required := .vBool true }, required := .vStr "html" }

/-- The `html` option spec registered by the application. -/
def htmlSpec : OptionSpec :=
  { longCode := .vStr "html", shortCode := .vStr "h",
    description := .vStr "string of HTML to be loaded (HTML must be valid-ish)",
    value := some { required := .vBool true }, required := .vStr "url" }

/-- The required-pair schema of end-to-end scenarios A and B: `url` and
`html`, each naming the other in `required`. -/
def schemaAB : List Option' := addOption [] [urlSpec, htmlSpec]

/-- The `url` Option as constructed (used to state expected parse
results explicitly). -/
def urlOpt : Option' :=
  { longCode := .vStr "url", shortCode := .vStr "u",
    description := .vStr "a URL to load", type := .normal,
    valCurrent := .vNull, valDefault := .vNull, valRequired := .vBool true,
    required := .vStr "html", id := .vStr "url" }

/-- The `html` Option as constructed. -/
def htmlOpt : Option' :=
  { longCode := .vStr "html", shortCode := .vStr "h",
    description := .vStr "string of HTML to be loaded (HTML must be valid-ish)",
    type := .normal, valCurrent := .vNull, valDefault := .vNull,
    valRequired := .vBool true, required := .vStr "url", id := .vStr "html" }

/-- The `output-base64-format` option spec registered by the
application (default `"PNG"`). -/
def ofSpec : OptionSpec :=
  { longCode := .vStr "output-base64-format", shortCode := .vStr "OF",
    description := .vStr "output page image base64 format",
    value := some { required := .vBool true, default := .vStr "PNG" } }

/-- Registry holding only `output-base64-format`. -/
def schemaOF : List Option' := addOption [] [ofSpec]

/-- The `output-base64-format` Option as constructed. -/
def ofOpt : Option' :=
  { longCode := .vStr "output-base64-format", shortCode := .vStr "OF",
    description := .vStr "output page image base64 format", type := .normal,
    valCurrent := .vNull, valDefault := .vStr "PNG",
    valRequired := .vBool true, required := .vBool false,
    id := .vStr "output-base64-format" }

/-- A single-flag spec with long code `x`, parametrised by the
pre-existing `value.current` and by `value.required`. -/
def flagSpec (cur vreq : JSVal) : OptionSpec :=
  { longCode := .vStr "x", value := some { current := cur, required := vreq } }

/-- Registry holding a single option with the mixed-case long code
`Foo`. -/
def fooSchema : List Option' := addOption [] [{ longCode := .vStr "Foo" }]

/-- Registry holding a single option registered under the explicit
hyphenated id `output-base64`, with no codes. -/
def obSchema : List Option' := addOption [] [{ id := .vStr "output-base64" }]

/-- The `output-base64` option spec registered by the application
(falsy default `false`). -/
def obFalseSpec : OptionSpec :=
  { longCode := .vStr "output-base64", shortCode := .vStr "O",
    description := .vStr "output page image as base64 encoded string",
    value := some { default := .vBool false }, required := .vStr "output" }

/-! ### Claim C1 -/

/-- Claim C1, counterexample: with the required-pair schema (`url`
requiring `html` and vice versa) and no value supplied to either,
`parse` invokes the error callback TWICE with a required-pair message
(once per member of the pair), not exactly once as claimed: the full
event trace of `parse(["prog"])` holds two pair errors followed by the
final success callback. -/
theorem c1_counterexample :
    parse schemaAB ["prog"] =
      .ok (schemaAB,
        [.errObj ⟨"url -OR- html is required", -1⟩,
         .errObj ⟨"html -OR- url is required", -1⟩,
         .successEv schemaAB]) := rfl

/-- Claim C1, amended: with the required-pair schema, parsing with
neither option supplied invokes the error callback exactly twice with a
required-pair message naming both codes (once per member, each naming
both codes in its member's order), while supplying a value to either
member of the pair yields no error callback at all. -/
theorem c1_amended_pair_errors :
    parse schemaAB ["prog"] =
      .ok (schemaAB,
        [.errObj ⟨"url -OR- html is required", -1⟩,
         .errObj ⟨"html -OR- url is required", -1⟩,
         .successEv schemaAB]) ∧
    parse schemaAB ["prog", "--url", "http://x"] =
      .ok ([{ urlOpt with valCurrent := .vStr "http://x" }, htmlOpt],
        [.successEv [{ urlOpt with valCurrent := .vStr "http://x" }, htmlOpt]]) ∧
    parse schemaAB ["prog", "--html", "<p>hi</p>"] =
      .ok ([urlOpt, { htmlOpt with valCurrent := .vStr "<p>hi</p>" }],
        [.successEv [urlOpt, { htmlOpt with valCurrent := .vStr "<p>hi</p>" }]]) :=
  ⟨rfl, rfl, rfl⟩

/-! ### Claim C2 -/

/-- Claim C2, counterexample: parsing `["prog", "--url"]` against the
required-pair schema reports the `url requires a value` error AND
nevertheless overwrites `url`'s `value.current` with `true` (the
assignment is not confined to the non-error case; the claim said the
value is left unchanged on error). -/
theorem c2_counterexample :
    parse schemaAB ["prog", "--url"] =
      .ok ([{ urlOpt with valCurrent := .vBool true }, htmlOpt],
        [.errObj ⟨"url requires a value", -1⟩,
         .successEv [{ urlOpt with valCurrent := .vBool true }, htmlOpt]]) := rfl

/-- Claim C2, amended: when a resolved option is given as a bare switch
with no following value token, the parser reports the
`<code> requires a value` error exactly when `valueIsRequired()` is
truthy and no value is already set, and in EVERY case (error or not) it
then sets `value.current = true`; stated for a single registered flag
with long code `x` and arbitrary pre-existing `value.current` and
`value.required`. -/
theorem c2_amended_flag_sets_true (cur vreq : JSVal) :
    parse [mkOption (flagSpec cur vreq)] ["prog", "--x"] =
    .ok ([{ mkOption (flagSpec cur vreq) with valCurrent := .vBool true }],
      (if truthy vreq && !truthy cur
       then [CbEvent.errObj ⟨"x requires a value", -1⟩] else []) ++
      [CbEvent.successEv
        [{ mkOption (flagSpec cur vreq) with valCurrent := .vBool true }]]) := by
  have ho : mkOption (flagSpec cur vreq) =
      { longCode := .vStr "x", shortCode := .vNull, description := .vNull,
        type := .normal, valCurrent := jsOr cur .vNull, valDefault := .vNull,
        valRequired := jsOr vreq (.vBool false), required := .vBool false,
        id := .vStr "x" } := rfl
  rw [ho]
  have hm : matchesId
      { longCode := .vStr "x", shortCode := .vNull, description := .vNull,
        type := .normal, valCurrent := jsOr cur .vNull, valDefault := .vNull,
        valRequired := jsOr vreq (.vBool false), required := .vBool false,
        id := .vStr "x" } (.vStr "x") = true := rfl
  have e1 : strStartsWith "--x" "--" = true := rfl
  have e2 : strToLower (strDrop "--x" 2) = "x" := rfl
  have e3 : jsIndexOfEq "x" = -1 := rfl
  have e4 : jsIndexOfEq "--x" = -1 := rfl
  have hvr : truthy (jsOr vreq (.vBool false)) = truthy vreq :=
    truthy_jsOr_falsy _ _ rfl
  have hcur : truthy (jsOr cur .vNull) = truthy cur :=
    truthy_jsOr_falsy _ _ rfl
  simp [parse, parseLoop, findOption, List.find?_cons_of_pos, hm, e1, e2, e3, e4,
    setCurrentFirst, requiredPass, checkRequired, generateError,
    Option'.valueIsRequired, Option'.getValue, hvr, hcur]
  decide

/-! ### Claim C3 -/

/-- Claim C3, counterexample: `parse` does NOT report every error
through the callback — on the token sequence `["prog", "x"]` (a
top-level token after the program name starting with neither `--` nor
`-`, before any switch), the loop variable `argCode` is still
`undefined` and `argCode.indexOf("=")` throws a `TypeError` past the
parser's boundary, modelled as `Except.error`. -/
theorem c3_counterexample : parse schemaAB ["prog", "x"] = .error () := rfl

/-- Claim C3, amended: for every schema and every token sequence whose
token right after the program name (when present) starts with `-`,
`parse` never throws past its own boundary — every error condition is
reported through the shared callback and the call returns normally.
(Only a dash-less token processed while `argCode` is still undefined,
i.e. a dash-less first argument, can throw.) -/
theorem c3_amended_no_throw (opts : List Option') (args : List String)
    (h : ∀ s, args[1]? = some s → strStartsWith s "-" = true) :
    ∃ r, parse opts args = Except.ok r := by
  obtain ⟨⟨opts', evs⟩, hr⟩ :=
    parseLoop_ok_hyp args args.length 1 none opts [] (fun _ => h)
  exact ⟨(opts', evs ++ requiredPass opts' ++ [.successEv opts']),
    by simp [parse, hr]⟩

/-- Witness for the amended C3 theorem at the concrete input
`["prog", "--url", "http://x"]` with the required-pair schema. -/
theorem c3_amended_no_throw_witness :
    (∀ s, (["prog", "--url", "http://x"] : List String)[1]? = some s →
      strStartsWith s "-" = true) ∧
    ∃ r, parse schemaAB ["prog", "--url", "http://x"] = Except.ok r :=
  ⟨fun s hs => by cases hs; rfl,
   c3_amended_no_throw schemaAB ["prog", "--url", "http://x"]
     (fun s hs => by cases hs; rfl)⟩

/-! ### Claim C4 -/

/-- Claim C4, counterexample: an option registered with the mixed-case
long code `Foo` is never resolved by a `--` token, although the token
text `Foo` equals the long code case-insensitively — the parser
lowercases only the token, and compares it with the raw long code via
`===`, so `parse(["prog", "--Foo"])` reports `foo not found in
options`. -/
theorem c4_counterexample :
    fooSchema = [mkOption { longCode := .vStr "Foo" }] ∧
    parse fooSchema ["prog", "--Foo"] =
      .ok (fooSchema,
        [.errObj ⟨"foo not found in options", -1⟩, .successEv fooSchema]) :=
  ⟨rfl, rfl⟩

/-- Claim C4, amended: for an option whose registered long code is all
lower-case, in a registry where no earlier option matches, a long token
`--X` resolves to that option if and only if `X` equals the long code
case-insensitively; only the token side is lowercased before the strict
comparison, so a long code registered with an upper-case letter is
unmatchable (see the counterexample).  Stated over the single-option
registry via the argCode the tokenizer computes for `--X` (strip the
prefix, lower-case).  Lower-case hyphenated long codes are covered: the
camel-cased `getId` disjunct of `findOption` cannot fire spuriously,
since camel-casing either leaves the id unchanged or introduces an
upper-case letter, which a lowercased token never contains. -/
theorem c4_amended_long_resolution (lc X : String) (h1 : lc ≠ "")
    (h2 : strToLower lc = lc) :
    (findOption [mkOption { longCode := .vStr lc }]
        (.vStr (strToLower X))).isSome = true ↔
      strToLower X = strToLower lc := by
  have ht : truthy (.vStr lc) = true := by simp [truthy, h1]
  have hU : ∀ b, jsOr .vUndefined b = b := fun b => rfl
  have hN : ∀ b, jsOr .vNull b = b := fun b => rfl
  have hLC : ∀ b, jsOr (.vStr lc) b = .vStr lc := fun b => jsOr_of_truthy _ _ ht
  have ho : mkOption { longCode := .vStr lc } =
      { longCode := .vStr lc, shortCode := .vNull, description := .vNull,
        type := .normal, valCurrent := .vNull, valDefault := .vNull,
        valRequired := .vBool false, required := .vBool false,
        id := .vStr lc } := by
    simp [mkOption, specValField, hU, hN, hLC]
  have hgid : Option'.getId
      { longCode := .vStr lc, shortCode := .vNull, description := .vNull,
        type := .normal, valCurrent := .vNull, valDefault := .vNull,
        valRequired := .vBool false, required := .vBool false,
        id := .vStr lc } = .vStr (toCamelCase lc) := by
    simp [Option'.getId, hU, hN, hLC, ht, camelVal]
  have hmx : matchesId
      { longCode := .vStr lc, shortCode := .vNull, description := .vNull,
        type := .normal, valCurrent := .vNull, valDefault := .vNull,
        valRequired := .vBool false, required := .vBool false,
        id := .vStr lc } (.vStr (strToLower X)) =
      ((toCamelCase lc == strToLower X) || (lc == strToLower X)) := by
    unfold matchesId
    rw [hgid]
    simp [jsStrictEq]
  rw [h2, ho]
  by_cases hq : strToLower X = lc
  · rw [hq] at hmx
    simp [findOption, List.find?_cons, hmx, hq]
  · have hq2 : (lc == strToLower X) = false := by
      simp [Ne.symm hq]
    have hq3 : (toCamelCase lc == strToLower X) = false := by
      apply beq_eq_false_iff_ne.mpr
      intro heq
      exact hq (camel_eq_lower_imp lc X heq)
    simp [findOption, List.find?_cons, hmx, hq2, hq3, hq]

/-- Witness for the amended C4 theorem: the application's hyphenated
lower-case long code `output-base64` is resolved by the mixed-case
token rest `Output-Base64`. -/
theorem c4_amended_long_resolution_witness :
    ("output-base64" ≠ "" ∧ strToLower "output-base64" = "output-base64") ∧
    ((findOption [mkOption { longCode := .vStr "output-base64" }]
        (.vStr (strToLower "Output-Base64"))).isSome = true ↔
      strToLower "Output-Base64" = strToLower "output-base64") :=
  ⟨⟨by decide, rfl⟩,
   c4_amended_long_resolution "output-base64" "Output-Base64" (by decide) rfl⟩

/-! ### Claim C5 -/

/-- Claim C5: against any registry in which no option's id, long code
or short code resolves `bogus`, parsing `["prog", "--bogus"]` invokes
the callback with the error object `msg = "bogus not found in
options"`, `code = -1`, and the parser proceeds (the loop continues and
the required pass and the final success callback still run). -/
theorem c5_unknown_flag (opts : List Option')
    (h : findOption opts (.vStr "bogus") = none) :
    parse opts ["prog", "--bogus"] =
      .ok (opts, .errObj ⟨"bogus not found in options", -1⟩ ::
        (requiredPass opts ++ [.successEv opts])) := by
  have e1 : strStartsWith "--bogus" "--" = true := rfl
  have e2 : strToLower (strDrop "--bogus" 2) = "bogus" := rfl
  have e3 : jsIndexOfEq "bogus" = -1 := rfl
  simp [parse, parseLoop, e1, e2, e3, h, generateError]

/-- Witness for C5: the required-pair schema resolves no `bogus`. -/
theorem c5_unknown_flag_witness :
    findOption schemaAB (.vStr "bogus") = none ∧
    parse schemaAB ["prog", "--bogus"] =
      .ok (schemaAB, .errObj ⟨"bogus not found in options", -1⟩ ::
        (requiredPass schemaAB ++ [.successEv schemaAB])) :=
  ⟨rfl, c5_unknown_flag schemaAB rfl⟩

/-! ### Claim C6 -/

/-- Claim C6: end-to-end scenario B — on `["prog", "--url",
"http://x"]` against the required-pair schema the outcome is success:
no error callback at all, the callback receives the full ordered option
list, `url.getValue()` is `"http://x"` and `html.getValue()` is
`null`. -/
theorem c6_scenario_b :
    parse schemaAB ["prog", "--url", "http://x"] =
      .ok ([{ urlOpt with valCurrent := .vStr "http://x" }, htmlOpt],
        [.successEv [{ urlOpt with valCurrent := .vStr "http://x" }, htmlOpt]]) ∧
    (findOption [{ urlOpt with valCurrent := .vStr "http://x" }, htmlOpt]
        (.vStr "url")).map Option'.getValue = some (.vStr "http://x") ∧
    (findOption [{ urlOpt with valCurrent := .vStr "http://x" }, htmlOpt]
        (.vStr "html")).map Option'.getValue = some .vNull :=
  ⟨rfl, rfl, rfl⟩

/-! ### Claim C7 -/

/-- Claim C7: an inline `--code=value` assigns the value text with case
preserved, overriding the declared default — parsing `["prog",
"--output-base64-format=JPEG"]` against the `output-base64-format`
option (default `"PNG"`) yields `getValue() == "JPEG"` while the
default field keeps `"PNG"`. -/
theorem c7_inline_value_overrides_default :
    parse schemaOF ["prog", "--output-base64-format=JPEG"] =
      .ok ([{ ofOpt with valCurrent := .vStr "JPEG" }],
        [.successEv [{ ofOpt with valCurrent := .vStr "JPEG" }]]) ∧
    Option'.getValue { ofOpt with valCurrent := .vStr "JPEG" } = .vStr "JPEG" ∧
    ofOpt.valDefault = .vStr "PNG" :=
  ⟨rfl, rfl, rfl⟩

/-! ### Claim C8 -/

/-- Claim C8: registration is idempotent on the normalized id —
registering two specs whose constructed Options have the same
`getId()` leaves exactly one Option in the registry, the one built
from the first spec (no error is raised: `addOption` is total and
returns the registry). -/
theorem c8_idempotent_registration (s1 s2 : OptionSpec)
    (h : (mkOption s1).getId = (mkOption s2).getId) :
    addOption [] [s1, s2] = [mkOption s1] := by
  simp [addOption, addOption1, findOption, List.find?, matchesId, ← h,
    jsStrictEq_refl]

/-- Witness for C8: the `url` spec and a second spec with explicit id
`url` normalize to the same id; only the first is kept. -/
theorem c8_idempotent_registration_witness :
    (mkOption urlSpec).getId = (mkOption { id := .vStr "url" }).getId ∧
    addOption [] [urlSpec, { id := .vStr "url" }] = [mkOption urlSpec] :=
  ⟨rfl, c8_idempotent_registration urlSpec { id := .vStr "url" } rfl⟩

/-! ### Claim C9 -/

/-- Claim C9, counterexample: an Option registered under the explicit
hyphenated id `output-base64` (and no codes) IS in the registry, yet
`findOption("output-base64")` returns `null` — `getId()` camel-cases
the id, so neither the id comparison nor the (null) code comparisons
match the raw hyphenated form. -/
theorem c9_counterexample :
    obSchema = [mkOption { id := .vStr "output-base64" }] ∧
    findOption obSchema (.vStr "output-base64") = none :=
  ⟨rfl, rfl⟩

/-- Claim C9, amended: for a registered Option whose raw id X is fixed
by camel-case normalization (hyphen-free) or equals the option's
`longCode` or `shortCode`, and which no earlier option in the registry
matches, `findOption(X)` returns that Option and its `getId()` is the
camel-case normalization of X.  (A raw hyphenated id differing from
both codes is not findable, see the counterexample.) -/
theorem c9_amended_find_by_id (pre post : List Option') (spec : OptionSpec)
    (X : String)
    (hid : (mkOption spec).id = .vStr X)
    (hX : toCamelCase X = X ∨ (mkOption spec).longCode = .vStr X ∨
      (mkOption spec).shortCode = .vStr X)
    (hpre : ∀ p ∈ pre, matchesId p (.vStr X) = false) :
    findOption (pre ++ mkOption spec :: post) (.vStr X) =
        some (mkOption spec) ∧
      (mkOption spec).getId = .vStr (toCamelCase X) := by
  have ht : truthy (.vStr X) = true := by
    rcases mkOption_id_truthy_or_null spec with h | h
    · rw [hid] at h; exact h
    · rw [hid] at h; exact absurd h (by simp)
  have hgid : (mkOption spec).getId = .vStr (toCamelCase X) := by
    rw [Option'.getId, hid, jsOr_of_truthy _ _ ht, if_pos ht]
    rfl
  have hmx : matchesId (mkOption spec) (.vStr X) = true := by
    rw [matchesId, hgid]
    rcases hX with h | h | h
    · rw [h]
      simp [jsStrictEq_refl]
    · rw [h]
      simp [jsStrictEq_refl]
    · rw [h]
      simp [jsStrictEq_refl]
  refine ⟨?_, hgid⟩
  rw [findOption, find?_append_none _ _ _ hpre, List.find?_cons, hmx]

/-- Witness for the amended C9 theorem: a singleton registry with long
code `url`, raw id `url`. -/
theorem c9_amended_find_by_id_witness :
    ((mkOption { longCode := .vStr "url" } : Option').id = .vStr "url") ∧
    (findOption ([] ++ mkOption { longCode := .vStr "url" } :: [])
        (.vStr "url") = some (mkOption { longCode := .vStr "url" }) ∧
      (mkOption { longCode := .vStr "url" } : Option').getId =
        .vStr (toCamelCase "url")) :=
  ⟨rfl, c9_amended_find_by_id [] [] { longCode := .vStr "url" } "url" rfl
    (Or.inl rfl) (by simp)⟩

/-! ### Claim C10 -/

/-- Claim C10: the Option constructor normalizes falsy default values
to `null` — for any spec whose `value.default` is `false`, `0` or the
empty string, the constructed Option has `value.default == null`,
`hasDefaultValue()` is falsy, and the Normal banner rendering carries
no default suffix (it is exactly the base rendering plus the trailing
newline). -/
theorem c10_falsy_default_null (spec : OptionSpec) (v : ValueSpec)
    (hv : spec.value = some v)
    (hd : v.default = .vBool false ∨ v.default = .vNum 0 ∨
      v.default = .vStr "") :
    (mkOption spec).valDefault = .vNull ∧
      truthy (mkOption spec).hasDefaultValue = false ∧
      normalRender (mkOption spec) = normalBase (mkOption spec) ++ "\n" := by
  have h1 : (mkOption spec).valDefault = .vNull := by
    have hh : (mkOption spec).valDefault =
        jsOr (specValField spec (·.default)) .vNull := rfl
    have hf : specValField spec (·.default) = v.default := by
      simp [specValField, hv]
    rw [hh, hf]
    rcases hd with h | h | h <;> rw [h] <;> rfl
  have h2 : truthy (mkOption spec).hasDefaultValue = false := by
    rw [Option'.hasDefaultValue, h1]
    rfl
  refine ⟨h1, h2, ?_⟩
  simp [normalRender, h2]

/-- Witness for C10: the application's `output-base64` spec declares
`value.default = false`. -/
theorem c10_falsy_default_null_witness :
    (obFalseSpec.value = some { default := .vBool false }) ∧
    ((mkOption obFalseSpec).valDefault = .vNull ∧
      truthy (mkOption obFalseSpec).hasDefaultValue = false ∧
      normalRender (mkOption obFalseSpec) =
        normalBase (mkOption obFalseSpec) ++ "\n") :=
  ⟨rfl, c10_falsy_default_null obFalseSpec { default := .vBool false } rfl
    (Or.inl rfl)⟩
